import Mathlib

/-!
Verification of the hono-audit-api browser orchestration core.

Shallow embedding of the repository's browser service, retry helper,
URL validator and audit pipeline, with theorems checking the
natural-language specification against the embedded code.

The embedding follows the TypeScript source:
* `src/services/browser.ts` — `BrowserService` (semaphore, page loading,
  screenshots, TTL cleanup);
* `src/services/auditor.ts` — `WebsiteAuditor.auditWebsite` and
  `loadPageWithRetry`;
* `src/utils/helpers.ts` — `retryWithBackoff`;
* `src/services/validator.ts` — `validateUrl`.

External JavaScript builtins (the WHATWG `URL` parser, the zod url format
check, puppeteer, the filesystem) are modelled as oracle parameters; the
repository's own control flow is translated branch by branch.
-/

namespace HonoAudit

/-! ## Concurrency slots: `BrowserService.acquireSlot` / `releaseSlot`

The service keeps `currentSlots : number`, a capacity
`maxConcurrentPages` and a FIFO `queue` of pending resolvers.
`acquireSlot` resolves immediately while below capacity, otherwise it
pushes a resolver that, when run, increments `currentSlots` and resolves
the waiting promise.  `releaseSlot` decrements (clamped at 0 via
`Math.max`) and then runs the resolver shifted from the front of the
queue, if any.

Waiters are identified by arrival number (`nextId` is a fresh counter in
arrival order).  `granted` records, in order, every acquirer whose
promise has been resolved. -/

structure SemState where
  maxConcurrentPages : Nat
  currentSlots : Nat
  queue : List Nat
  granted : List Nat
  nextId : Nat
deriving DecidableEq, Repr

/-- `acquireSlot` (browser.ts lines 83–96): grant immediately while
`currentSlots < maxConcurrentPages`, otherwise append the caller to the
wait queue. -/
def acquireSlot (s : SemState) : SemState :=
  if s.currentSlots < s.maxConcurrentPages then
    { s with currentSlots := s.currentSlots + 1,
             granted := s.granted ++ [s.nextId],
             nextId := s.nextId + 1 }
  else
    { s with queue := s.queue ++ [s.nextId], nextId := s.nextId + 1 }

/-- `releaseSlot` (browser.ts lines 101–108):
`currentSlots = Math.max(0, currentSlots - 1)` (truncated subtraction on
`Nat`), then `queue.shift()`; a shifted resolver increments
`currentSlots` and resolves its waiter. -/
def releaseSlot (s : SemState) : SemState :=
  let c := s.currentSlots - 1
  match s.queue with
  | [] => { s with currentSlots := c }
  | w :: rest =>
    { s with currentSlots := c + 1, queue := rest, granted := s.granted ++ [w] }

inductive SemEvent where
  | acquire
  | release
deriving DecidableEq, Repr

def semStep (s : SemState) : SemEvent → SemState
  | .acquire => acquireSlot s
  | .release => releaseSlot s

/-- A fresh `BrowserService`: no slots held, empty queue. -/
def semStart (capacity : Nat) : SemState :=
  { maxConcurrentPages := capacity, currentSlots := 0, queue := [],
    granted := [], nextId := 0 }

/-- State after an arbitrary interleaving of acquire/release calls. -/
def semRun (capacity : Nat) (events : List SemEvent) : SemState :=
  events.foldl semStep (semStart capacity)

/-- Invariant maintained by every interleaving: capacity is constant,
the slot count respects the capacity (for positive capacity), and the
wait queue lists waiters in strictly increasing arrival order, all of
them already issued. -/
def SemInv (capacity : Nat) (s : SemState) : Prop :=
  s.maxConcurrentPages = capacity
  ∧ (1 ≤ capacity → s.currentSlots ≤ capacity)
  ∧ s.queue.Pairwise (· < ·)
  ∧ ∀ w ∈ s.queue, w < s.nextId

theorem semStep_inv {capacity : Nat} {s : SemState} (hs : SemInv capacity s)
    (e : SemEvent) : SemInv capacity (semStep s e) := by
  obtain ⟨hmax, hle, hpair, hlt⟩ := hs
  cases e with
  | acquire =>
    simp only [semStep, acquireSlot]
    split
    next hcap =>
      refine ⟨hmax, fun h1 => ?_, hpair, fun w hw => ?_⟩
      · dsimp only
        omega
      · dsimp only at hw ⊢
        have := hlt w hw
        omega
    next hcap =>
      refine ⟨hmax, fun h1 => hle h1, ?_, ?_⟩
      · dsimp only
        refine List.pairwise_append.mpr ⟨hpair, List.pairwise_singleton _ _, ?_⟩
        intro a ha b hb
        simp only [List.mem_singleton] at hb
        subst hb
        exact hlt a ha
      · dsimp only
        intro w hw
        rcases List.mem_append.mp hw with h | h
        · have := hlt w h; omega
        · simp only [List.mem_singleton] at h; omega
  | release =>
    simp only [semStep, releaseSlot]
    cases hq : s.queue with
    | nil =>
      rw [hq] at hpair hlt
      dsimp only
      refine ⟨hmax, fun h1 => ?_, by simp, by simp⟩
      have := hle h1
      dsimp only
      omega
    | cons w rest =>
      rw [hq] at hpair hlt
      dsimp only
      refine ⟨hmax, fun h1 => ?_, ?_, ?_⟩
      · have := hle h1
        dsimp only
        omega
      · exact hpair.of_cons
      · dsimp only
        intro x hx
        exact hlt x (List.mem_cons_of_mem w hx)

theorem semFoldl_inv {capacity : Nat} (events : List SemEvent) :
    ∀ s : SemState, SemInv capacity s → SemInv capacity (events.foldl semStep s) := by
  induction events with
  | nil => intro s hs; simpa using hs
  | cons e es ih =>
    intro s hs
    rw [List.foldl_cons]
    exact ih _ (semStep_inv hs e)

theorem semRun_inv (capacity : Nat) (events : List SemEvent) :
    SemInv capacity (semRun capacity events) := by
  apply semFoldl_inv
  refine ⟨rfl, fun _ => ?_, by simp [semStart], by simp [semStart]⟩
  simp [semStart]

/-- C2: for every interleaving of `acquireSlot`/`releaseSlot` calls on a
service with capacity `N ≥ 1`, the outstanding slot count `currentSlots`
never exceeds `N`; and when the service is saturated a further
`acquireSlot` resolves nobody (the `granted` log is unchanged) and joins
the back of the wait queue, while an `acquireSlot` call never removes
anyone from the wait queue — only `releaseSlot` can resolve a waiter. -/
theorem acquireSlot_capacity_bound (N : Nat) (hN : 1 ≤ N)
    (events : List SemEvent) :
    (semRun N events).currentSlots ≤ N
    ∧ ((semRun N events).currentSlots = N →
        (acquireSlot (semRun N events)).granted = (semRun N events).granted
        ∧ (acquireSlot (semRun N events)).queue
            = (semRun N events).queue ++ [(semRun N events).nextId])
    ∧ ∀ w ∈ (semRun N events).queue, w ∈ (acquireSlot (semRun N events)).queue := by
  obtain ⟨hmax, hle, hpair, hlt⟩ := semRun_inv N events
  refine ⟨hle hN, fun hfull => ?_, fun w hw => ?_⟩
  · rw [acquireSlot, if_neg (by omega)]
    exact ⟨rfl, rfl⟩
  · rw [acquireSlot]
    split
    · exact hw
    · exact List.mem_append_left _ hw

/-- Witness for C2 at capacity 2 after three concurrent acquires: two
slots are held, the saturated service grants a fourth acquire nothing
and queues it, and the waiting third caller stays queued. -/
theorem acquireSlot_capacity_bound_witness :
    (semRun 2 [SemEvent.acquire, SemEvent.acquire, SemEvent.acquire]).currentSlots ≤ 2
    ∧ (acquireSlot (semRun 2 [SemEvent.acquire, SemEvent.acquire, SemEvent.acquire])).granted
        = (semRun 2 [SemEvent.acquire, SemEvent.acquire, SemEvent.acquire]).granted
    ∧ (acquireSlot (semRun 2 [SemEvent.acquire, SemEvent.acquire, SemEvent.acquire])).queue
        = (semRun 2 [SemEvent.acquire, SemEvent.acquire, SemEvent.acquire]).queue
          ++ [(semRun 2 [SemEvent.acquire, SemEvent.acquire, SemEvent.acquire]).nextId]
    ∧ 2 ∈ (acquireSlot (semRun 2 [SemEvent.acquire, SemEvent.acquire, SemEvent.acquire])).queue := by
  have h := acquireSlot_capacity_bound 2 (by decide)
    [SemEvent.acquire, SemEvent.acquire, SemEvent.acquire]
  exact ⟨h.1, (h.2.1 (by decide)).1, (h.2.1 (by decide)).2, h.2.2 2 (by decide)⟩

/-- C3: the wait queue is FIFO-fair.  In every reachable state whose
queue is `w :: rest`, `releaseSlot` grants the freed slot to `w` — the
longest-waiting acquirer — and every other waiter `w'` still in the
queue arrived later than `w` (`w < w'`, waiter ids being issued in
arrival order). -/
theorem releaseSlot_fifo_fair (N : Nat) (events : List SemEvent)
    (w : Nat) (rest : List Nat) (hq : (semRun N events).queue = w :: rest) :
    (releaseSlot (semRun N events)).granted = (semRun N events).granted ++ [w]
    ∧ ∀ w' ∈ rest, w < w' := by
  obtain ⟨hmax, hle, hpair, hlt⟩ := semRun_inv N events
  constructor
  · rw [releaseSlot]
    rw [hq]
  · rw [hq] at hpair
    exact fun w' hw' => (List.pairwise_cons.mp hpair).1 w' hw'

/-- Witness for C3: capacity 1, three acquirers; waiters 1 and 2 are
queued and a release grants waiter 1, which arrived before waiter 2. -/
theorem releaseSlot_fifo_fair_witness :
    (releaseSlot (semRun 1 [SemEvent.acquire, SemEvent.acquire, SemEvent.acquire])).granted
      = (semRun 1 [SemEvent.acquire, SemEvent.acquire, SemEvent.acquire]).granted ++ [1]
    ∧ 1 < 2 := by
  have h := releaseSlot_fifo_fair 1
    [SemEvent.acquire, SemEvent.acquire, SemEvent.acquire] 1 [2] (by decide)
  exact ⟨h.1, h.2 2 (by decide)⟩

/-! ## Slot accounting along the exit paths of `loadPage` / `screenshotUrl`

`BrowserService.loadPage` (browser.ts lines 116–215) awaits
`this.initialize()` and `this.acquireSlot()`, then checks
`if (!this.browser) throw new Error('Browser not initialized')` — this
check sits *before* the `try { ... } catch { ... } finally { ... }`
block whose `finally` closes the page and calls `releaseSlot()`.

`BrowserService.screenshotUrl` (browser.ts lines 386–477) also acquires
a slot; on a null browser it explicitly calls `releaseSlot()` before
throwing; it then awaits `this.browser.newPage()` *outside* its
`try ... finally`, and its `finally` runs `await page.close()`
unguarded before the `try { this.releaseSlot() } catch` that follows.

Each function is modelled as a function from an oracle describing which
steps fail to the outcome plus acquire/release counters. -/

inductive SlotOutcome where
  | ok
  | failResult
  | thrown
deriving DecidableEq, Repr

structure SlotTrace where
  outcome : SlotOutcome
  acquires : Nat
  releases : Nat
deriving DecidableEq, Repr

/-- Oracle for one `loadPage` call: is `this.browser` non-null at the
check after `acquireSlot`, and does the `try` body (page creation,
navigation, extraction) complete without throwing. -/
structure LoadPageEnv where
  browserNonNull : Bool
  tryBodyOk : Bool
deriving DecidableEq, Repr

/-- Slot accounting of `BrowserService.loadPage`: a thrown
`'Browser not initialized'` happens after the acquire and before the
`try/finally`, so no release runs on that path; both `try` outcomes
(successful result or caught error result) pass through `finally`,
which releases exactly once. -/
def loadPageSlots (env : LoadPageEnv) : SlotTrace :=
  if env.browserNonNull then
    { outcome := if env.tryBodyOk then .ok else .failResult,
      acquires := 1, releases := 1 }
  else
    { outcome := .thrown, acquires := 1, releases := 0 }

/-- Oracle for one `screenshotUrl` call. -/
structure ScreenshotEnv where
  browserNonNull : Bool
  newPageOk : Bool
  captureOk : Bool
  closeOk : Bool
deriving DecidableEq, Repr

/-- Slot accounting of `BrowserService.screenshotUrl`: the null-browser
path releases explicitly before throwing; a throwing
`this.browser.newPage()` happens before the `try ... finally`, so its
slot is never released; in `finally`, a throwing `await page.close()`
skips the `releaseSlot()` that follows it; otherwise the slot is
released exactly once whether the capture body succeeded or threw. -/
def screenshotUrlSlots (env : ScreenshotEnv) : SlotTrace :=
  if !env.browserNonNull then
    { outcome := .thrown, acquires := 1, releases := 1 }
  else if !env.newPageOk then
    { outcome := .thrown, acquires := 1, releases := 0 }
  else if !env.closeOk then
    { outcome := .thrown, acquires := 1, releases := 0 }
  else if env.captureOk then
    { outcome := .ok, acquires := 1, releases := 1 }
  else
    { outcome := .thrown, acquires := 1, releases := 1 }

/-- C1 (code bug): the claimed balance fails.  When `loadPage` finds
`this.browser` null after acquiring its slot (the browser disconnected
while the caller waited in the queue), it throws without releasing —
one acquire, zero releases.  `screenshotUrl` leaks the same way when
`newPage()` throws.  The ordinary paths (normal result or caught load
failure) do balance. -/
theorem loadPage_slot_leak :
    (loadPageSlots { browserNonNull := false, tryBodyOk := true }).acquires = 1
    ∧ (loadPageSlots { browserNonNull := false, tryBodyOk := true }).releases = 0
    ∧ (loadPageSlots { browserNonNull := false, tryBodyOk := true }).outcome = .thrown
    ∧ (screenshotUrlSlots
        { browserNonNull := true, newPageOk := false, captureOk := true, closeOk := true }).acquires = 1
    ∧ (screenshotUrlSlots
        { browserNonNull := true, newPageOk := false, captureOk := true, closeOk := true }).releases = 0
    ∧ (loadPageSlots { browserNonNull := true, tryBodyOk := true }).releases = 1
    ∧ (loadPageSlots { browserNonNull := true, tryBodyOk := false }).releases = 1 := by
  decide

/-! ## `retryWithBackoff` (helpers.ts lines 162–186)

The loop runs `attempt` from `0` to `maxRetries`; it calls `fn`, returns
its value on success, and on a caught failure sets
`lastError = error instanceof Error ? error : new Error('Unknown error')`,
rethrows `lastError` when `attempt === maxRetries`, and otherwise waits
`baseDelay * Math.pow(2, attempt) + Math.random() * 1000` before the next
iteration.

Thrown JavaScript values are either `Error` objects or arbitrary other
values; the operation is modelled as a function of the attempt index so
that "fails k times then succeeds" is expressible.  `retryGo fn b jitter
attempt rem` returns the final outcome, the number of invocations of
`fn`, and the list of delays waited (the `Math.random() * 1000` draw of
the wait after attempt `n` is `jitter n`). -/

inductive JsVal where
  | errObj (message : String)
  | nonError (payload : String)
deriving DecidableEq, Repr

/-- `error instanceof Error ? error : new Error('Unknown error')`. -/
def lastErrorOf : JsVal → JsVal
  | .errObj m => .errObj m
  | .nonError _ => .errObj "Unknown error"

def retryGo {α : Type} (fn : Nat → Except JsVal α) (baseDelay : ℚ)
    (jitter : Nat → ℚ) (attempt rem : Nat) : Except JsVal α × Nat × List ℚ :=
  match fn attempt with
  | .ok v => (.ok v, 1, [])
  | .error e =>
    match rem with
    | 0 => (.error (lastErrorOf e), 1, [])
    | rem' + 1 =>
      let d := baseDelay * 2 ^ attempt + jitter attempt
      let r := retryGo fn baseDelay jitter (attempt + 1) rem'
      (r.1, r.2.1 + 1, d :: r.2.2)

/-- `retryWithBackoff(fn, maxRetries, baseDelay)` with the `Math.random()`
draws supplied by `jitter`.  Yields (outcome, number of calls to `fn`,
delays waited between attempts). -/
def retryWithBackoff {α : Type} (fn : Nat → Except JsVal α) (maxRetries : Nat)
    (baseDelay : ℚ) (jitter : Nat → ℚ) : Except JsVal α × Nat × List ℚ :=
  retryGo fn baseDelay jitter 0 maxRetries

theorem retryGo_ok_step {α : Type} (fn : Nat → Except JsVal α) (b : ℚ)
    (jit : Nat → ℚ) (a r : Nat) (v : α) (h : fn a = .ok v) :
    retryGo fn b jit a r = (.ok v, 1, []) := by
  rw [retryGo, h]

theorem retryGo_err_zero {α : Type} (fn : Nat → Except JsVal α) (b : ℚ)
    (jit : Nat → ℚ) (a : Nat) (e : JsVal) (h : fn a = .error e) :
    retryGo fn b jit a 0 = (.error (lastErrorOf e), 1, []) := by
  rw [retryGo, h]

theorem retryGo_err_succ {α : Type} (fn : Nat → Except JsVal α) (b : ℚ)
    (jit : Nat → ℚ) (a r : Nat) (e : JsVal) (h : fn a = .error e) :
    retryGo fn b jit a (r + 1)
      = ((retryGo fn b jit (a + 1) r).1,
         (retryGo fn b jit (a + 1) r).2.1 + 1,
         (b * 2 ^ a + jit a) :: (retryGo fn b jit (a + 1) r).2.2) := by
  rw [retryGo, h]

/-- Every recorded delay is `baseDelay * 2 ^ n + jitter n` where `n` is
the index of the attempt that just failed. -/
theorem retryGo_delay {α : Type} (fn : Nat → Except JsVal α) (b : ℚ)
    (jit : Nat → ℚ) :
    ∀ rem a j : Nat, ∀ d : ℚ,
      ((retryGo fn b jit a rem).2.2)[j]? = some d →
      d = b * 2 ^ (a + j) + jit (a + j) := by
  intro rem
  induction rem with
  | zero =>
    intro a j d h
    cases hfn : fn a with
    | ok v => rw [retryGo_ok_step fn b jit a 0 v hfn] at h; simp at h
    | error e => rw [retryGo_err_zero fn b jit a e hfn] at h; simp at h
  | succ rem' ih =>
    intro a j d h
    cases hfn : fn a with
    | ok v => rw [retryGo_ok_step fn b jit a (rem' + 1) v hfn] at h; simp at h
    | error e =>
      rw [retryGo_err_succ fn b jit a rem' e hfn] at h
      cases j with
      | zero =>
        simp only [List.getElem?_cons_zero, Option.some.injEq] at h
        rw [← h, Nat.add_zero]
      | succ j' =>
        simp only [List.getElem?_cons_succ] at h
        have := ih (a + 1) j' d h
        rw [this, show a + 1 + j' = a + (j' + 1) by omega]

/-- If the operation fails on attempts `a, …, a+j-1` and succeeds on
attempt `a+j`, with at least `j` retries remaining, the loop returns the
success after exactly `j+1` invocations. -/
theorem retryGo_succeeds {α : Type} (fn : Nat → Except JsVal α) (b : ℚ)
    (jit : Nat → ℚ) (v : α) :
    ∀ j a r : Nat, j ≤ r →
      (∀ n, n < j → ∃ e, fn (a + n) = .error e) →
      fn (a + j) = .ok v →
      (retryGo fn b jit a r).1 = .ok v ∧ (retryGo fn b jit a r).2.1 = j + 1 := by
  intro j
  induction j with
  | zero =>
    intro a r _ _ hsucc
    rw [Nat.add_zero] at hsucc
    rw [retryGo_ok_step fn b jit a r v hsucc]
    exact ⟨rfl, rfl⟩
  | succ j' ih =>
    intro a r hjr hfail hsucc
    obtain ⟨e, he⟩ := hfail 0 (Nat.succ_pos j')
    rw [Nat.add_zero] at he
    cases r with
    | zero => omega
    | succ r' =>
      rw [retryGo_err_succ fn b jit a r' e he]
      have hfail' : ∀ n, n < j' → ∃ e', fn (a + 1 + n) = .error e' := by
        intro n hn
        obtain ⟨e', he'⟩ := hfail (n + 1) (by omega)
        exact ⟨e', by rw [show a + 1 + n = a + (n + 1) by omega]; exact he'⟩
      have hsucc' : fn (a + 1 + j') = .ok v := by
        rw [show a + 1 + j' = a + (j' + 1) by omega]; exact hsucc
      obtain ⟨h1, h2⟩ := ih (a + 1) r' (by omega) hfail' hsucc'
      exact ⟨h1, by rw [h2]⟩

/-- If the operation fails on every attempt `a, …, a+r`, the loop makes
exactly `r+1` invocations and rethrows the `lastError` derived from the
final failure. -/
theorem retryGo_exhausts {α : Type} (fn : Nat → Except JsVal α) (b : ℚ)
    (jit : Nat → ℚ) (fv : Nat → JsVal) :
    ∀ r a : Nat, (∀ n, n ≤ r → fn (a + n) = .error (fv (a + n))) →
      (retryGo fn b jit a r).1 = .error (lastErrorOf (fv (a + r)))
      ∧ (retryGo fn b jit a r).2.1 = r + 1 := by
  intro r
  induction r with
  | zero =>
    intro a hfail
    have h0 := hfail 0 (Nat.le_refl 0)
    rw [Nat.add_zero] at h0
    rw [retryGo_err_zero fn b jit a (fv a) h0]
    exact ⟨by rw [Nat.add_zero], rfl⟩
  | succ r' ih =>
    intro a hfail
    have h0 := hfail 0 (Nat.zero_le _)
    rw [Nat.add_zero] at h0
    rw [retryGo_err_succ fn b jit a r' (fv a) h0]
    have hfail' : ∀ n, n ≤ r' → fn (a + 1 + n) = .error (fv (a + 1 + n)) := by
      intro n hn
      rw [show a + 1 + n = a + (n + 1) by omega]
      exact hfail (n + 1) (by omega)
    obtain ⟨h1, h2⟩ := ih (a + 1) hfail'
    refine ⟨?_, by rw [h2]⟩
    rw [h1, show a + 1 + r' = a + (r' + 1) by omega]

/-- C4 counterexample: with an always-failing operation,
`baseDelay = 1000` and all jitter draws equal to `0`, the delay waited
before attempt 1 is `1000 = baseDelay * 2^0`, while the claim's formula
`baseDelay * 2^1 + jitter` cannot produce `1000` for any jitter in
`[0, 1000)`. -/
theorem retryWithBackoff_delay_claim_false :
    ((retryWithBackoff (fun _ => (Except.error (JsVal.errObj "network") : Except JsVal Nat))
        2 1000 (fun _ => 0)).2.2)[0]? = some 1000
    ∧ ∀ j : ℚ, 0 ≤ j → j < 1000 → (1000 : ℚ) ≠ 1000 * 2 ^ 1 + j := by
  constructor
  · show ((retryGo (fun _ => (Except.error (JsVal.errObj "network") : Except JsVal Nat))
        1000 (fun _ => 0) 0 2).2.2)[0]? = some 1000
    rw [retryGo_err_succ _ _ _ 0 1 _ rfl]
    norm_num
  · intro j h0 h1 habs
    have : j = -1000 := by linarith
    rw [this] at h0
    norm_num at h0

/-- C4 (amended): the delay waited before attempt `i` (0-indexed,
`i ≥ 1`) equals `baseDelay * 2 ^ (i - 1)` plus the jitter draw, which
lies in `[0, 1000)` because each `Math.random() * 1000` draw does. -/
theorem retryWithBackoff_delay_formula {α : Type} (fn : Nat → Except JsVal α)
    (maxRetries : Nat) (baseDelay : ℚ) (jitter : Nat → ℚ)
    (hjit : ∀ n, 0 ≤ jitter n ∧ jitter n < 1000)
    (i : Nat) (hi : 1 ≤ i) (d : ℚ)
    (hd : ((retryWithBackoff fn maxRetries baseDelay jitter).2.2)[i - 1]? = some d) :
    ∃ j : ℚ, 0 ≤ j ∧ j < 1000 ∧ d = baseDelay * 2 ^ (i - 1) + j := by
  refine ⟨jitter (i - 1), (hjit (i - 1)).1, (hjit (i - 1)).2, ?_⟩
  have := retryGo_delay fn baseDelay jitter maxRetries 0 (i - 1) d hd
  rw [this, Nat.zero_add]

/-- Witness for the amended C4: always-failing operation, `maxRetries = 2`,
`baseDelay = 1000`, jitter draws all `500`; the delay before attempt 2
is `1000 * 2 ^ 1 + 500 = 2500`. -/
theorem retryWithBackoff_delay_formula_witness :
    ∃ j : ℚ, 0 ≤ j ∧ j < 1000 ∧ (2500 : ℚ) = 1000 * 2 ^ (2 - 1) + j :=
  retryWithBackoff_delay_formula
    (fun _ => (Except.error (JsVal.errObj "network") : Except JsVal Nat))
    2 1000 (fun _ => 500) (fun _ => by norm_num) 2 (by norm_num) 2500 (by
      show ((retryGo (fun _ => (Except.error (JsVal.errObj "network") : Except JsVal Nat))
          1000 (fun _ => 500) 0 2).2.2)[2 - 1]? = some 2500
      rw [retryGo_err_succ _ _ _ 0 1 _ rfl, retryGo_err_succ _ _ _ 1 0 _ rfl,
        retryGo_err_zero _ _ _ 2 _ rfl]
      norm_num)

/-- C5 counterexample: a wrapped operation that throws the non-`Error`
value `"boom"` with `maxRetries = 0` has its failure replaced by
`new Error('Unknown error')` — the original error detail is lost, so the
final failure is not propagated unchanged. -/
theorem retryWithBackoff_nonError_not_preserved :
    (retryWithBackoff (fun _ => (Except.error (JsVal.nonError "boom") : Except JsVal Nat))
        0 1000 (fun _ => 0)).1 = .error (.errObj "Unknown error")
    ∧ JsVal.errObj "Unknown error" ≠ JsVal.nonError "boom" := by
  exact ⟨rfl, by decide⟩

/-- C5 (amended): for an operation failing exactly `k` times and then
succeeding, `retryWithBackoff` with `maxRetries ≥ k` returns the success
after exactly `k + 1` invocations; with `maxRetries < k` it makes
exactly `maxRetries + 1` invocations and rethrows the last failure,
unchanged whenever the thrown value is an `Error` object (a thrown
non-`Error` value is replaced by `new Error('Unknown error')`). -/
theorem retryWithBackoff_attempt_counts {α : Type} (k maxRetries : Nat)
    (baseDelay : ℚ) (jitter : Nat → ℚ) (fn : Nat → Except JsVal α) (v : α)
    (fv : Nat → JsVal)
    (hfail : ∀ n, n < k → fn n = .error (fv n))
    (hsucc : fn k = .ok v) :
    (k ≤ maxRetries →
      (retryWithBackoff fn maxRetries baseDelay jitter).1 = .ok v
      ∧ (retryWithBackoff fn maxRetries baseDelay jitter).2.1 = k + 1)
    ∧ (maxRetries < k →
      (retryWithBackoff fn maxRetries baseDelay jitter).1
          = .error (lastErrorOf (fv maxRetries))
      ∧ (retryWithBackoff fn maxRetries baseDelay jitter).2.1 = maxRetries + 1
      ∧ ∀ m : String, fv maxRetries = .errObj m →
          (retryWithBackoff fn maxRetries baseDelay jitter).1 = .error (.errObj m)) := by
  constructor
  · intro hk
    refine retryGo_succeeds fn baseDelay jitter v k 0 maxRetries hk ?_ ?_
    · intro n hn
      exact ⟨fv n, by rw [Nat.zero_add]; exact hfail n hn⟩
    · rw [Nat.zero_add]; exact hsucc
  · intro hk
    have hall : ∀ n, n ≤ maxRetries → fn (0 + n) = .error (fv (0 + n)) := by
      intro n hn
      rw [Nat.zero_add]
      exact hfail n (by omega)
    obtain ⟨h1, h2⟩ := retryGo_exhausts fn baseDelay jitter fv maxRetries 0 hall
    rw [Nat.zero_add] at h1
    refine ⟨h1, h2, ?_⟩
    intro m hm
    show (retryGo fn baseDelay jitter 0 maxRetries).1 = Except.error (JsVal.errObj m)
    rw [h1, hm]
    rfl

/-- An operation that fails once with an `Error` and then succeeds
with `7`, exercising both branches of the retry-count theorem. -/
def retryDemoOp : Nat → Except JsVal Nat :=
  fun n => if n = 0 then .error (JsVal.errObj "first failure") else .ok 7

/-- Witness for the amended C5: with `maxRetries = 2 ≥ k = 1` the
success comes back after exactly 2 invocations; with `maxRetries = 0 <
k = 1` the loop stops after 1 invocation and rethrows the `Error`
unchanged. -/
theorem retryWithBackoff_attempt_counts_witness :
    (retryWithBackoff retryDemoOp 2 1000 (fun _ => 0)).1 = .ok 7
    ∧ (retryWithBackoff retryDemoOp 2 1000 (fun _ => 0)).2.1 = 1 + 1
    ∧ (retryWithBackoff retryDemoOp 0 1000 (fun _ => 0)).1
        = .error (.errObj "first failure")
    ∧ (retryWithBackoff retryDemoOp 0 1000 (fun _ => 0)).2.1 = 0 + 1 := by
  have hfail : ∀ n, n < 1 → retryDemoOp n = .error ((fun _ => JsVal.errObj "first failure") n) :=
    fun n hn => by simp [retryDemoOp, show n = 0 by omega]
  have hsucc : retryDemoOp 1 = .ok 7 := by simp [retryDemoOp]
  have h2 := (retryWithBackoff_attempt_counts 1 2 1000 (fun _ => 0) retryDemoOp 7
    (fun _ => JsVal.errObj "first failure") hfail hsucc).1 (by decide)
  have h0 := (retryWithBackoff_attempt_counts 1 0 1000 (fun _ => 0) retryDemoOp 7
    (fun _ => JsVal.errObj "first failure") hfail hsucc).2 (by decide)
  exact ⟨h2.1, h2.2, h0.2.2 "first failure" rfl, h0.2.1⟩

/-! ## Screenshot capture plan (browser.ts lines 427–466)

`screenshotUrl` measures the page height and either takes one full-page
capture (`dims.height <= MAX_SINGLE_IMAGE_HEIGHT`) or two clipped
captures: with `OVERLAP = 80` and `half = Math.ceil(dims.height / 2)`,
part1 is the clip at `y = 0` of height `Math.min(half + OVERLAP,
dims.height)` and part2 the clip at `y = Math.max(half - OVERLAP, 0)` of
height `dims.height - y`.  Heights are pixel counts; on `Nat`,
`Math.ceil(h / 2) = (h + 1) / 2` and `Math.max(x - 80, 0)` is truncated
subtraction.  Each list entry is a `(y, height)` clip; the list length
is the number of artifacts written. -/

def screenshotOverlap : Nat := 80

def screenshotPlan (height maxSingleImageHeight : Nat) : List (Nat × Nat) :=
  if height ≤ maxSingleImageHeight then
    [(0, height)]
  else
    let half := (height + 1) / 2
    let topHeight := min (half + screenshotOverlap) height
    let bottomStart := half - screenshotOverlap
    let bottomHeight := height - bottomStart
    [(0, topHeight), (bottomStart, bottomHeight)]

/-- C6: for measured height `H` and max single-capture height `M`:
`H ≤ M` yields exactly one full-page artifact; `H > M` yields exactly
two, part1 at `y = 0` with height `min(⌈H/2⌉ + 80, H)` and part2 at
`y = ⌈H/2⌉ - 80` (clamped at 0) with height `H - y`, and the combined
captured height strictly exceeds `H`. -/
theorem screenshotPlan_split (H M : Nat) :
    (H ≤ M → screenshotPlan H M = [(0, H)])
    ∧ (M < H →
        screenshotPlan H M
          = [(0, min ((H + 1) / 2 + 80) H),
             ((H + 1) / 2 - 80, H - ((H + 1) / 2 - 80))]
        ∧ (screenshotPlan H M).length = 2
        ∧ min ((H + 1) / 2 + 80) H + (H - ((H + 1) / 2 - 80)) > H) := by
  constructor
  · intro h
    rw [screenshotPlan, if_pos h]
  · intro h
    have hn : ¬ H ≤ M := by omega
    refine ⟨by rw [screenshotPlan, if_neg hn]; rfl, by rw [screenshotPlan, if_neg hn]; rfl, ?_⟩
    have h1 : 1 ≤ H := by omega
    omega

/-- Witness for C6 at the default `M = 15000`: a 100px page gives a
single full capture, a 20000px page is split in two overlapping parts
whose combined height exceeds 20000. -/
theorem screenshotPlan_split_witness :
    screenshotPlan 100 15000 = [(0, 100)]
    ∧ screenshotPlan 20000 15000
        = [(0, min ((20000 + 1) / 2 + 80) 20000),
           ((20000 + 1) / 2 - 80, 20000 - ((20000 + 1) / 2 - 80))]
    ∧ (screenshotPlan 20000 15000).length = 2
    ∧ min ((20000 + 1) / 2 + 80) 20000
        + (20000 - ((20000 + 1) / 2 - 80)) > 20000 := by
  have h1 := (screenshotPlan_split 100 15000).1 (by decide)
  have h2 := (screenshotPlan_split 20000 15000).2 (by decide)
  exact ⟨h1, h2.1, h2.2.1, h2.2.2⟩

/-! ## Screenshot TTL cleanup (browser.ts lines 65–73 and 482–506)

On first initialization the service schedules
`cleanupScreenshots` every
`Math.max(60 * 1000, Math.floor(screenshotTTL / 6))` milliseconds, the
TTL defaulting to `30 * 60 * 1000`.  A sweep lists the screenshot
directory and, for each file inside a per-file try/catch, stats it and
unlinks it when `st.mtimeMs < now - screenshotTTL`; a stat or unlink
failure is logged and the loop continues with the next file. -/

def defaultScreenshotTTL : Nat := 30 * 60 * 1000

/-- `Math.max(60 * 1000, Math.floor(ttl / 6))`; `Nat` division floors. -/
def cleanupInterval (ttl : Nat) : Nat := max (60 * 1000) (ttl / 6)

/-- One directory entry as the sweep sees it: name, last-modified
timestamp, and whether its `stat` and `unlink` calls succeed. -/
structure SweepFile where
  name : String
  mtimeMs : Int
  statOk : Bool
  unlinkOk : Bool
deriving DecidableEq, Repr

/-- `cleanupScreenshots`' loop over the directory listing: returns the
names actually deleted.  A file is deleted when its stat succeeds, its
age exceeds the TTL and its unlink succeeds; any per-file failure only
skips that file. -/
def cleanupScreenshots (ttl now : Int) : List SweepFile → List String
  | [] => []
  | f :: rest =>
    let deleted := f.statOk && decide (f.mtimeMs < now - ttl) && f.unlinkOk
    if deleted then f.name :: cleanupScreenshots ttl now rest
    else cleanupScreenshots ttl now rest

/-- C8: the sweep interval is `max(60s, TTL/6)` — 5 minutes at the
default 30-minute TTL; an error-free sweep deletes exactly the files
whose age `now - mtimeMs` strictly exceeds the TTL; and a file whose
stat or unlink fails is simply skipped, leaving the rest of the sweep
unchanged. -/
theorem cleanupScreenshots_ttl_sweep (ttl now : Int) (files : List SweepFile) :
    ((∀ f ∈ files, f.statOk = true ∧ f.unlinkOk = true) →
      cleanupScreenshots ttl now files
        = (files.filter (fun f => decide (now - f.mtimeMs > ttl))).map SweepFile.name)
    ∧ (∀ (f : SweepFile) (rest : List SweepFile),
        f.statOk = false ∨ f.unlinkOk = false →
        cleanupScreenshots ttl now (f :: rest) = cleanupScreenshots ttl now rest)
    ∧ cleanupInterval defaultScreenshotTTL = 5 * 60 * 1000
    ∧ ∀ t : Nat, cleanupInterval t = max (60 * 1000) (t / 6) := by
  refine ⟨?_, ?_, by decide, fun t => rfl⟩
  · intro hok
    induction files with
    | nil => rfl
    | cons f rest ih =>
      have hf := hok f (List.mem_cons_self f rest)
      have hrest := ih (fun g hg => hok g (List.mem_cons_of_mem f hg))
      rw [cleanupScreenshots]
      simp only [hf.1, hf.2, Bool.and_true, Bool.true_and]
      rw [List.filter_cons]
      by_cases hage : f.mtimeMs < now - ttl
      · rw [if_pos (by exact decide_eq_true hage), if_pos (by simpa using by omega)]
        rw [List.map_cons, hrest]
      · rw [if_neg (by simpa using hage), if_neg (by simpa using by omega)]
        exact hrest
  · intro f rest hbad
    rw [cleanupScreenshots]
    rcases hbad with h | h
    · rw [h]
      simp
    · rw [h]
      simp

/-- Witness for C8: TTL 1000ms at time 5000 deletes the file modified at
100 (age 4900 > 1000) and keeps the file modified at 4500; a file whose
unlink fails is skipped without aborting the sweep; the default TTL's
sweep interval is 5 minutes. -/
theorem cleanupScreenshots_ttl_sweep_witness :
    cleanupScreenshots 1000 5000
        [SweepFile.mk "old.jpg" 100 true true, SweepFile.mk "new.jpg" 4500 true true]
      = (([SweepFile.mk "old.jpg" 100 true true,
           SweepFile.mk "new.jpg" 4500 true true].filter
            (fun f => decide (5000 - f.mtimeMs > 1000))).map SweepFile.name)
    ∧ cleanupScreenshots 1000 5000
        [SweepFile.mk "stuck.jpg" 100 true false, SweepFile.mk "old.jpg" 100 true true]
      = cleanupScreenshots 1000 5000 [SweepFile.mk "old.jpg" 100 true true]
    ∧ cleanupInterval defaultScreenshotTTL = 5 * 60 * 1000
    ∧ cleanupInterval 1000 = max (60 * 1000) (1000 / 6) := by
  have h := cleanupScreenshots_ttl_sweep 1000 5000
    [SweepFile.mk "old.jpg" 100 true true, SweepFile.mk "new.jpg" 4500 true true]
  refine ⟨h.1 (by decide), ?_, h.2.2.1, h.2.2.2 1000⟩
  exact h.2.1 (SweepFile.mk "stuck.jpg" 100 true false)
    [SweepFile.mk "old.jpg" 100 true true] (Or.inr rfl)

/-! ## URL validation (validator.ts lines 27–181)

`validateUrl` delegates to two JavaScript builtins, modelled as oracle
parameters: the WHATWG parser `new URL(s)` (`parseURL s : Option
URLRecord`, `none` when the constructor throws) and zod's
`z.string().url()` format check (`zodUrlFormat`).  The zod schema's
`refine` re-parses the url and accepts only `http:`/`https:` protocols.
The whole body sits in a try/catch whose catch returns a structured
`URL_PARSE_ERROR`, so the function is total and always yields a
`ValidationResult`. -/

structure ApiError where
  error : String
  message : String
deriving DecidableEq, Repr

structure ValidationResult where
  success : Bool
  url : Option String := none
  error : Option ApiError := none
deriving DecidableEq, Repr

/-- The fields of a parsed WHATWG `URL` object that `validateUrl`
reads: `protocol` (with trailing colon), `hostname`, `port`,
`pathname`, and `href = url.toString()`. -/
structure URLRecord where
  protocol : String
  hostname : String
  port : String
  pathname : String
  href : String
deriving DecidableEq, Repr

/-! JavaScript string builtins (`trim`, `includes`), implemented by
structural recursion on the character list so that concrete inputs
evaluate inside the kernel. -/

def jsWhitespace (c : Char) : Bool :=
  c = ' ' || c = '\t' || c = '\n' || c = '\r'

def trimChars (l : List Char) : List Char :=
  ((l.dropWhile jsWhitespace).reverse.dropWhile jsWhitespace).reverse

/-- `s.trim()`. -/
def strTrim (s : String) : String := String.mk (trimChars s.data)

def charsStartWith : List Char → List Char → Bool
  | _, [] => true
  | [], _ :: _ => false
  | c :: cs, p :: ps => c = p && charsStartWith cs ps

def charsContain (pat : List Char) : List Char → Bool
  | [] => charsStartWith [] pat
  | c :: cs => charsStartWith (c :: cs) pat || charsContain pat cs

/-- `s.includes(pat)`. -/
def strIncludes (s pat : String) : Bool := charsContain pat.data s.data

/-- The blocked-domain list shipped in the source is empty, as is the
blocked-pattern list (both hold only commented-out examples). -/
def blockedDomains : List String := []

/-- `isBlockedDomain` (validator.ts lines 127–147). -/
def isBlockedDomain (hostname : String) : Bool :=
  blockedDomains.contains hostname.toLower

/-- `performAdditionalValidations` (validator.ts lines 154–181): URL
length bound, port range, suspicious path patterns, protocol
allowlist. -/
def performAdditionalValidations (u : URLRecord) : List String :=
  (if u.href.length > 2048 then ["URL is too long (maximum 2048 characters)"] else [])
  ++ (if u.port ≠ "" then
        match u.port.toNat? with
        | some p => if p < 1 ∨ p > 65535 then ["Invalid port number"] else []
        | none => ["Invalid port number"]
      else [])
  ++ (if strIncludes u.pathname ".." || strIncludes u.pathname "//" then
        ["URL contains suspicious path patterns"] else [])
  ++ (if u.protocol = "http:" ∨ u.protocol = "https:" then []
      else ["Only HTTP and HTTPS protocols are supported"])

/-- `validateUrl` (validator.ts lines 27–111), branch by branch:
missing/blank input, zod format check (with the http/https refine),
`new URL` parse (its throw is caught as `URL_PARSE_ERROR`), hostname
presence, blocked domains, additional validations, else success with
the normalized `parsedUrl.toString()`. -/
def validateUrl (parseURL : String → Option URLRecord)
    (zodUrlFormat : String → Bool) (urlString : String) : ValidationResult :=
  if urlString = "" ∨ strTrim urlString = "" then
    { success := false, error := some ⟨"MISSING_URL", "URL parameter is required"⟩ }
  else
    let cleanUrl := strTrim urlString
    let refineOk : Bool :=
      match parseURL cleanUrl with
      | some u => u.protocol = "http:" ∨ u.protocol = "https:"
      | none => false
    if ¬ (zodUrlFormat cleanUrl && refineOk) = true then
      { success := false,
        error := some ⟨"INVALID_URL_FORMAT",
          "Invalid URL format. Please provide a valid HTTP or HTTPS URL."⟩ }
    else
      match parseURL cleanUrl with
      | none =>
        { success := false,
          error := some ⟨"URL_PARSE_ERROR", "Failed to parse the provided URL"⟩ }
      | some parsedUrl =>
        if parsedUrl.hostname = "" ∨ strTrim parsedUrl.hostname = "" then
          { success := false,
            error := some ⟨"INVALID_HOSTNAME", "URL must have a valid hostname"⟩ }
        else if isBlockedDomain parsedUrl.hostname then
          { success := false,
            error := some ⟨"BLOCKED_DOMAIN", "This domain is not allowed for auditing"⟩ }
        else if performAdditionalValidations parsedUrl ≠ [] then
          { success := false,
            error := some ⟨"URL_VALIDATION_FAILED", "URL failed validation checks"⟩ }
        else
          { success := true, url := some parsedUrl.href }

/-- Whenever `validateUrl` reports failure it carries a structured
error object. -/
theorem validateUrl_error_structured (parseURL : String → Option URLRecord)
    (zodUrlFormat : String → Bool) (urlString : String) :
    (validateUrl parseURL zodUrlFormat urlString).success = true
    ∨ (validateUrl parseURL zodUrlFormat urlString).error.isSome = true := by
  rw [validateUrl]
  split
  · right; rfl
  · dsimp only
    split
    · right; rfl
    · split
      · right; rfl
      · split
        · right; rfl
        · split
          · right; rfl
          · split
            · right; rfl
            · left; rfl

/-! ## Audit pipeline (auditor.ts lines 581–724)

`WebsiteAuditor.auditWebsite` validates the URL, loads the page through
`loadPageWithRetry` (which wraps `browserService.loadPage` in
`retryWithBackoff(fn, 2, 1000)`, rethrowing on a failed
`PageLoadResult`), parses the markup, strips the extracted scripts from
the resources, optionally captures screenshots (failures recorded on
the success result), and assembles the final `AuditResult`.  The whole
body sits in a try/catch whose catch returns a structured
`AUDIT_FAILED` error.

Oracles in `AuditEnv`: the URL builtins for `validateUrl`, the result
of the `n`-th `loadPage` call, the outcome of the HTML parsing step,
the outcome of `screenshotUrl`, `getPageStatistics().totalElements`,
and a wall-clock reading used for all measured durations (the claims
never constrain timing values).  The returned `AuditFx` counts how many
times `loadPage` and `screenshotUrl` were invoked. -/

structure LinkDetails where
  href : String
  textContent : String
  isInternal : Bool
  rel : Option String := none
deriving DecidableEq, Repr

structure ScriptDetails where
  src : Option String := none
  inlineContent : Option String := none
deriving DecidableEq, Repr

structure StyleDetails where
  href : Option String := none
  inlineContent : Option String := none
deriving DecidableEq, Repr

structure PageResources where
  links : List LinkDetails
  scripts : List ScriptDetails
  styles : List StyleDetails
deriving DecidableEq, Repr

/-- `PageLoadResult` (browser.ts lines 512–522). -/
structure PageLoadResult where
  success : Bool
  url : String
  html : Option String := none
  statusCode : Option Nat := none
  loadTimeInMs : Option Nat := none
  headers : Option (List (String × String)) := none
  error : Option ApiError := none
deriving DecidableEq, Repr

/-- The slice of `parser.extractAuditData` that the pipeline reshapes:
the final URL and the extracted page resources (the remaining parsed
content is carried through opaquely). -/
structure ParsedData where
  url : String
  resources : PageResources
deriving DecidableEq, Repr

/-- One stored screenshot artifact as returned by `screenshotUrl`. -/
structure Artifact where
  filename : String
deriving DecidableEq, Repr

structure AuditOptions where
  timeout : Option Nat := none
  includeScreenshot : Bool := false
  screenshotType : Option String := none
  screenshotQuality : Option Nat := none
  userAgent : Option String := none
deriving DecidableEq, Repr

/-- `AuditResult.details` (auditor.ts lines 907–913). -/
structure AuditDetails where
  step : Option String := none
  loadTime : Option Nat := none
  parseTime : Option Nat := none
  totalElements : Option Nat := none
deriving DecidableEq, Repr

/-- The assembled success payload: load metadata plus the reshaped
resources, the optional screenshot artifacts and the non-fatal
`screenshotError` field. -/
structure WebsiteAuditData where
  url : String
  statusCode : Nat
  loadTimeInMs : Nat
  resources : PageResources
  responseHeaders : List (String × String)
  screenshot : Option (List Artifact) := none
  screenshotError : Option String := none
deriving DecidableEq, Repr

structure AuditResult where
  success : Bool
  data : Option WebsiteAuditData := none
  error : Option ApiError := none
  executionTime : Nat
  details : Option AuditDetails := none
deriving DecidableEq, Repr

/-- Effect log: how many times the pipeline invoked
`browserService.loadPage` (each call acquires a concurrency slot) and
`browserService.screenshotUrl`. -/
structure AuditFx where
  loadPageCalls : Nat
  screenshotCalls : Nat
deriving DecidableEq, Repr

structure AuditEnv where
  parseURL : String → Option URLRecord
  zodUrlFormat : String → Bool
  loadResults : Nat → PageLoadResult
  parseHtml : Except String ParsedData
  shots : Except String (List Artifact)
  totalElements : Nat
  elapsed : Nat

/-- The operation `loadPageWithRetry` hands to `retryWithBackoff`
(auditor.ts lines 710–720): call `loadPage` and throw
`new Error(result.error?.message || 'Page loading failed')` when the
result is unsuccessful. -/
def loadPageOp (env : AuditEnv) (n : Nat) : Except JsVal PageLoadResult :=
  let r := env.loadResults n
  if r.success then .ok r
  else
    .error (.errObj (match r.error with
      | some e => if e.message = "" then "Page loading failed" else e.message
      | none => "Page loading failed"))

/-- `loadPageWithRetry` (auditor.ts lines 709–724): `retryWithBackoff`
with max 2 retries and base delay 1000ms. -/
def loadPageWithRetry (env : AuditEnv) (jitter : Nat → ℚ) :
    Except JsVal PageLoadResult × Nat × List ℚ :=
  retryWithBackoff (loadPageOp env) 2 1000 jitter

def jsErrMessage : JsVal → String
  | .errObj m => m
  | .nonError p => p

/-- `WebsiteAuditor.auditWebsite` (auditor.ts lines 581–701).
Step 1 validation failure returns the validator's error with no further
work.  Step 2's exhausted retries throw, landing in the outer catch
(`AUDIT_FAILED`); the dead `!pageLoadResult.success` branch of the
source (its stage="page_loading" return) is kept.  Step 3's parse
failure also lands in the outer catch.  Step 4 rebuilds `resources`
with `scripts: []`, then optionally captures screenshots, recording a
capture failure in `screenshotError` on the otherwise-successful
result. -/
def auditWebsite (env : AuditEnv) (jitter : Nat → ℚ) (url : String)
    (options : AuditOptions) : AuditResult × AuditFx :=
  let vr := validateUrl env.parseURL env.zodUrlFormat url
  if vr.success = false then
    ({ success := false, error := vr.error, executionTime := env.elapsed }, ⟨0, 0⟩)
  else
    let lr := loadPageWithRetry env jitter
    match lr.1 with
    | .error e =>
      ({ success := false,
         error := some ⟨"AUDIT_FAILED", "Audit failed: " ++ jsErrMessage e⟩,
         executionTime := env.elapsed }, ⟨lr.2.1, 0⟩)
    | .ok plr =>
      if plr.success = false then
        ({ success := false, error := plr.error, executionTime := env.elapsed,
           details := some { step := some "page_loading", loadTime := some env.elapsed } },
         ⟨lr.2.1, 0⟩)
      else
        match env.parseHtml with
        | .error m =>
          ({ success := false,
             error := some ⟨"AUDIT_FAILED", "Audit failed: " ++ m⟩,
             executionTime := env.elapsed }, ⟨lr.2.1, 0⟩)
        | .ok parsed =>
          let modifiedResources : PageResources :=
            { links := parsed.resources.links, scripts := [],
              styles := parsed.resources.styles }
          let base : WebsiteAuditData :=
            { url := plr.url,
              statusCode := plr.statusCode.getD 0,
              loadTimeInMs := plr.loadTimeInMs.getD 0,
              resources := modifiedResources,
              responseHeaders := plr.headers.getD [] }
          let shotStep : WebsiteAuditData × Nat :=
            if options.includeScreenshot then
              match env.shots with
              | .ok arr => ({ base with screenshot := some arr }, 1)
              | .error m =>
                ({ base with screenshot := some [], screenshotError := some m }, 1)
            else (base, 0)
          ({ success := true,
             data := some shotStep.1,
             executionTime := env.elapsed,
             details := some { step := none, loadTime := some env.elapsed,
                               parseTime := some env.elapsed,
                               totalElements := some env.totalElements } },
           ⟨lr.2.1, shotStep.2⟩)

theorem loadPageWithRetry_first_ok (env : AuditEnv) (jitter : Nat → ℚ)
    (h : (env.loadResults 0).success = true) :
    loadPageWithRetry env jitter = (.ok (env.loadResults 0), 1, []) := by
  rw [loadPageWithRetry, retryWithBackoff]
  exact retryGo_ok_step _ _ _ 0 2 _ (by rw [loadPageOp]; simp [h])

/-- C7: when validation, page loading and parsing succeed and a
screenshot was requested, a screenshot-capture failure never escalates:
`auditWebsite` still returns `success = true`, records the failure
message in `screenshotError` and attaches an empty artifact list. -/
theorem auditWebsite_screenshot_failure_nonfatal (env : AuditEnv)
    (jitter : Nat → ℚ) (url : String) (options : AuditOptions)
    (parsed : ParsedData) (m : String)
    (hval : (validateUrl env.parseURL env.zodUrlFormat url).success = true)
    (hload : (env.loadResults 0).success = true)
    (hparse : env.parseHtml = Except.ok parsed)
    (hshot : options.includeScreenshot = true)
    (hfail : env.shots = Except.error m) :
    (auditWebsite env jitter url options).1.success = true
    ∧ ∃ d : WebsiteAuditData,
        (auditWebsite env jitter url options).1.data = some d
        ∧ d.screenshotError = some m
        ∧ d.screenshot = some [] := by
  rw [auditWebsite, if_neg (by rw [hval]; simp),
    loadPageWithRetry_first_ok env jitter hload]
  dsimp only
  rw [if_neg (by rw [hload]; simp), hparse]
  dsimp only
  rw [if_pos hshot, hfail]
  exact ⟨rfl, _, rfl, rfl, rfl⟩

/-- C10: on the fully successful path, the assembled result's
`resources.scripts` is always the empty list — the parser's extracted
scripts are discarded — while `resources.links` and `resources.styles`
are passed through unchanged from the parsed data. -/
theorem auditWebsite_scripts_discarded (env : AuditEnv) (jitter : Nat → ℚ)
    (url : String) (options : AuditOptions) (parsed : ParsedData)
    (hval : (validateUrl env.parseURL env.zodUrlFormat url).success = true)
    (hload : (env.loadResults 0).success = true)
    (hparse : env.parseHtml = Except.ok parsed) :
    ∃ d : WebsiteAuditData,
      (auditWebsite env jitter url options).1.data = some d
      ∧ d.resources.scripts = []
      ∧ d.resources.links = parsed.resources.links
      ∧ d.resources.styles = parsed.resources.styles := by
  rw [auditWebsite, if_neg (by rw [hval]; simp),
    loadPageWithRetry_first_ok env jitter hload]
  dsimp only
  rw [if_neg (by rw [hload]; simp), hparse]
  dsimp only
  by_cases hshot : options.includeScreenshot
  · rw [if_pos hshot]
    cases hs : env.shots with
    | ok arr => exact ⟨_, rfl, rfl, rfl, rfl⟩
    | error m => exact ⟨_, rfl, rfl, rfl, rfl⟩
  · rw [if_neg hshot]
    exact ⟨_, rfl, rfl, rfl, rfl⟩

/-- C9 (amended): when `validateUrl` fails, `auditWebsite` returns
immediately with `success = false` carrying the validator's structured
error and *no* stage attribution (`details = none`), without invoking
`loadPage` (hence without acquiring any concurrency slot or retrying)
and without capturing screenshots; and `validateUrl` always produces a
structured result. -/
theorem auditWebsite_validation_short_circuit (env : AuditEnv)
    (jitter : Nat → ℚ) (url : String) (options : AuditOptions)
    (hval : (validateUrl env.parseURL env.zodUrlFormat url).success = false) :
    (auditWebsite env jitter url options).1
      = { success := false,
          error := (validateUrl env.parseURL env.zodUrlFormat url).error,
          executionTime := env.elapsed, data := none, details := none }
    ∧ (auditWebsite env jitter url options).2 = ⟨0, 0⟩
    ∧ (validateUrl env.parseURL env.zodUrlFormat url).error.isSome = true
    ∧ ∀ s : String,
        (validateUrl env.parseURL env.zodUrlFormat s).success = true
        ∨ (validateUrl env.parseURL env.zodUrlFormat s).error.isSome = true := by
  rw [auditWebsite, if_pos hval]
  refine ⟨rfl, rfl, ?_, fun s => validateUrl_error_structured _ _ s⟩
  rcases validateUrl_error_structured env.parseURL env.zodUrlFormat url with h | h
  · rw [hval] at h; cases h
  · exact h

/-- An environment whose oracles are never consulted on the
validation-failure path. -/
def unusedEnv : AuditEnv :=
  { parseURL := fun _ => none,
    zodUrlFormat := fun _ => false,
    loadResults := fun _ => { success := false, url := "" },
    parseHtml := Except.error "unused",
    shots := Except.error "unused",
    totalElements := 0,
    elapsed := 0 }

/-- C9 counterexample to the claim as stated: auditing the empty URL
string fails validation with the validator's `MISSING_URL` error, but
the returned result carries no stage attribution at all — its
`details` field is `none`, so no `step = "validation"` is recorded
anywhere (the source's validation-failure return has no `details`
property, unlike its page-loading-failure return). -/
theorem auditWebsite_validation_stage_missing :
    (auditWebsite unusedEnv (fun _ => 0) "" {}).1.success = false
    ∧ (auditWebsite unusedEnv (fun _ => 0) "" {}).1.error
        = some ⟨"MISSING_URL", "URL parameter is required"⟩
    ∧ (auditWebsite unusedEnv (fun _ => 0) "" {}).1.details = none
    ∧ ¬ ∃ d : AuditDetails,
        (auditWebsite unusedEnv (fun _ => 0) "" {}).1.details = some d
        ∧ d.step = some "validation" := by
  refine ⟨rfl, rfl, rfl, ?_⟩
  rintro ⟨d, hd, -⟩
  have : (auditWebsite unusedEnv (fun _ => 0) "" {}).1.details = none := rfl
  rw [this] at hd
  cases hd

/-- A concrete audit environment in which every pipeline stage
succeeds except the screenshot capture. -/
def exampleRecord : URLRecord :=
  { protocol := "https:", hostname := "example.com", port := "",
    pathname := "/", href := "https://example.com/" }

def exampleEnv : AuditEnv :=
  { parseURL := fun s => if s = "https://example.com/" then some exampleRecord else none,
    zodUrlFormat := fun _ => true,
    loadResults := fun _ =>
      { success := true, url := "https://example.com/",
        html := some "<html><body>hi</body></html>",
        statusCode := some 200, loadTimeInMs := some 5,
        headers := some [("content-type", "text/html")] },
    parseHtml := Except.ok
      { url := "https://example.com/",
        resources :=
          { links := [{ href := "https://example.com/a", textContent := "a",
                        isInternal := true }],
            scripts := [{ src := some "https://example.com/app.js" }],
            styles := [{ href := some "https://example.com/app.css" }] } },
    shots := Except.error "screenshot capture failed",
    totalElements := 7,
    elapsed := 12 }

theorem exampleEnv_validates :
    (validateUrl exampleEnv.parseURL exampleEnv.zodUrlFormat
        "https://example.com/").success = true := by
  decide

/-- Witness for C7 on `exampleEnv`: the audit succeeds, the failure
message lands in `screenshotError`, and the artifact list is empty. -/
theorem auditWebsite_screenshot_failure_nonfatal_witness :
    (auditWebsite exampleEnv (fun _ => 0) "https://example.com/"
        { includeScreenshot := true }).1.success = true
    ∧ ∃ d : WebsiteAuditData,
        (auditWebsite exampleEnv (fun _ => 0) "https://example.com/"
            { includeScreenshot := true }).1.data = some d
        ∧ d.screenshotError = some "screenshot capture failed"
        ∧ d.screenshot = some [] :=
  auditWebsite_screenshot_failure_nonfatal exampleEnv (fun _ => 0)
    "https://example.com/" { includeScreenshot := true } _
    "screenshot capture failed" exampleEnv_validates rfl rfl rfl rfl

/-- Witness for C10 on `exampleEnv`: the extracted script list is
dropped while links and styles survive. -/
theorem auditWebsite_scripts_discarded_witness :
    ∃ d : WebsiteAuditData,
      (auditWebsite exampleEnv (fun _ => 0) "https://example.com/" {}).1.data = some d
      ∧ d.resources.scripts = []
      ∧ d.resources.links
          = [{ href := "https://example.com/a", textContent := "a",
               isInternal := true }]
      ∧ d.resources.styles = [{ href := some "https://example.com/app.css" }] :=
  auditWebsite_scripts_discarded exampleEnv (fun _ => 0)
    "https://example.com/" {}
    { url := "https://example.com/",
      resources :=
        { links := [{ href := "https://example.com/a", textContent := "a",
                      isInternal := true }],
          scripts := [{ src := some "https://example.com/app.js" }],
          styles := [{ href := some "https://example.com/app.css" }] } }
    exampleEnv_validates rfl rfl

/-- Witness for the amended C9 on a URL rejected by the format check:
the audit returns the validator's error with no details, no load calls
and no screenshot calls. -/
theorem auditWebsite_validation_short_circuit_witness :
    (auditWebsite unusedEnv (fun _ => 0) "not a url" {}).1
      = { success := false,
          error := (validateUrl unusedEnv.parseURL unusedEnv.zodUrlFormat "not a url").error,
          executionTime := unusedEnv.elapsed, data := none, details := none }
    ∧ (auditWebsite unusedEnv (fun _ => 0) "not a url" {}).2 = ⟨0, 0⟩
    ∧ (validateUrl unusedEnv.parseURL unusedEnv.zodUrlFormat "not a url").error.isSome = true := by
  have h := auditWebsite_validation_short_circuit unusedEnv (fun _ => 0) "not a url" {} (by decide)
  exact ⟨h.1, h.2.1, h.2.2.1⟩
